import Mathlib

/-!
# Verification of the agentic recruitment orchestration engine

Shallow embedding of the autonomous tool-orchestration core:
- `AgentState`, `AgentDecision`, `ToolResult` (services/agents/base_agent.py)
- the four capabilities (services/agents/tools/{search,github,personality,ranking}_tool.py)
- the rule-based fallback decision of both LLM routers and the shared
  usage statistics (services/agents/llm_routers/{deepseek,llama,base}_router.py)
- the decision loop `find_candidates` (services/agents/agentic_orchestrator.py)

External collaborators (vector search, Supabase profile lookups, LLM calls)
are modelled as explicit oracle inputs; a call that can raise is modelled as
an `Except`-valued input.  Wall-clock durations and timestamps are not
modelled (they carry no control-flow weight); the `execution_time` of a
tool result is kept as a field so that the accounting updates stay faithful.
-/

/-- A GitHub project entry attached to a candidate during GitHub enrichment. -/
structure Project where
  repo_name : String
  language : String
  topics : List String
  stars : Nat
  description : String
  similarity : Rat
deriving Repr, DecidableEq

/--
A candidate record.  Python stores candidates as dicts; the fields below are
exactly the keys written by the search, enrichment and ranking tools.  A key
that may be absent is modelled with `Option` (absent = `none`); dict reads
with a default (`.get(k, d)`) become `Option.getD`.
-/
structure Candidate where
  student_id : String
  name : String := ""
  skills : String := "N/A"
  github_username : String := "N/A"
  resume_similarity : Rat := 0
  resume_text : String := ""
  github_analyzed : Bool := false
  personality_analyzed : Bool := false
  github_projects : List Project := []
  portfolio_summary : Option String := none
  personality_data : Option String := none
  fit_score : Option Rat := none
  evaluation_bullets : List String := []
  notable_github_projects : List String := []
  next_step : Option String := none
  personality_insight : Option String := none
deriving Repr, DecidableEq

/-- Result from a tool execution (base_agent.ToolResult). -/
structure ToolResult where
  tool_name : String
  success : Bool
  error : Option String := none
  execution_time : Rat := 0
deriving Repr, DecidableEq

/-- Agent's decision on next action (base_agent.AgentDecision). -/
structure AgentDecision where
  tool_name : String
  reasoning : String
  parameters : List (String × Rat) := []
  confidence : Rat := 1
deriving Repr, DecidableEq

/-- One entry of the execution log (base_agent.AgentState.add_execution_log). -/
structure LogEntry where
  iteration : Nat
  tool : String
  reasoning : String
  success : Bool
  execution_time : Rat
deriving Repr, DecidableEq

/-- Current state of the agent (base_agent.AgentState), with the dataclass defaults. -/
structure AgentState where
  query : String
  candidates : List Candidate := []
  enriched_candidates : List Candidate := []
  final_rankings : List Candidate := []
  iterations : Nat := 0
  max_iterations : Nat := 5
  goal_met : Bool := false
  min_candidates : Nat := 3
  min_fit_score : Rat := 7
  tools_used : List String := []
  execution_log : List LogEntry := []
  total_execution_time : Rat := 0
deriving Repr, DecidableEq

/-- base_agent.AgentState.add_execution_log: append a log entry and update accounting. -/
def AgentState.add_execution_log (s : AgentState) (decision : AgentDecision)
    (result : ToolResult) : AgentState :=
  { s with
    execution_log := s.execution_log ++
      [{ iteration := s.iterations, tool := decision.tool_name,
         reasoning := decision.reasoning, success := result.success,
         execution_time := result.execution_time }],
    tools_used := s.tools_used ++ [decision.tool_name],
    total_execution_time := s.total_execution_time + result.execution_time }

/-- base_agent.AgentState.check_goal: false on empty rankings, else counts
candidates whose fit score (default 0 when absent) reaches the threshold. -/
def AgentState.check_goal (s : AgentState) : Bool :=
  if s.final_rankings.isEmpty then false
  else
    decide (s.min_candidates ≤
      (s.final_rankings.filter
        (fun c => decide (s.min_fit_score ≤ c.fit_score.getD 0))).length)

/-- base_agent.AgentState.should_continue. -/
def AgentState.should_continue (s : AgentState) : Bool :=
  if s.goal_met then false
  else if s.max_iterations ≤ s.iterations then false
  else true

/-- deepseek_router.DeepSeekRouter._fallback_decision (the redundant second
branch of the Python elif-chain is kept). -/
def DeepSeekRouter.fallback_decision (state : AgentState) : AgentDecision :=
  if state.candidates.isEmpty then
    { tool_name := "search_candidates", reasoning := "Fallback: No candidates yet",
      parameters := [("top_k", 5), ("threshold", 0)] }
  else if !state.candidates.isEmpty && state.final_rankings.isEmpty then
    { tool_name := "rank_candidates", reasoning := "Fallback: Need ranking" }
  else if state.final_rankings.isEmpty then
    { tool_name := "rank_candidates", reasoning := "Fallback: Need ranking" }
  else
    { tool_name := "finish", reasoning := "Fallback: Done" }

/-- llama_router.LlamaRouter._fallback_decision (same rule chain as DeepSeek's). -/
def LlamaRouter.fallback_decision (state : AgentState) : AgentDecision :=
  if state.candidates.isEmpty then
    { tool_name := "search_candidates", reasoning := "Fallback: No candidates yet",
      parameters := [("top_k", 5), ("threshold", 0)] }
  else if !state.candidates.isEmpty && state.final_rankings.isEmpty then
    { tool_name := "rank_candidates", reasoning := "Fallback: Need ranking" }
  else if state.final_rankings.isEmpty then
    { tool_name := "rank_candidates", reasoning := "Fallback: Need ranking" }
  else
    { tool_name := "finish", reasoning := "Fallback: Done" }

/-- The usage counters of a router together with its static configuration
(base_router.BaseLLMRouter fields plus the relevant LLMConfig fields). -/
structure RouterCounters where
  model_name : String
  provider : String
  size : String
  total_tokens : Nat
  total_cost : Rat
  total_calls : Nat
deriving Repr, DecidableEq

/-- The dictionary returned by base_router.BaseLLMRouter.get_stats. -/
structure RouterStats where
  model : String
  provider : String
  size : String
  total_calls : Nat
  total_tokens : Nat
  total_cost : Rat
  avg_tokens_per_call : Rat
deriving Repr, DecidableEq

/-- base_router.BaseLLMRouter.get_stats. -/
def BaseLLMRouter.get_stats (r : RouterCounters) : RouterStats :=
  { model := r.model_name, provider := r.provider, size := r.size,
    total_calls := r.total_calls, total_tokens := r.total_tokens,
    total_cost := r.total_cost,
    avg_tokens_per_call :=
      if 0 < r.total_calls then (r.total_tokens : Rat) / (r.total_calls : Rat) else 0 }

/-- One raw match from the resume search provider (vector store / RAG factory). -/
structure SearchMatch where
  student_id : String
  similarity : Rat := 0
  resume_text : String := ""
deriving Repr, DecidableEq

/-- A row of the Supabase profiles table, restricted to the keys search reads. -/
structure Profile where
  name : Option String := none
  full_name : Option String := none
  student_name : Option String := none
  display_name : Option String := none
  skills : Option String := none
  github_username : Option String := none
deriving Repr, DecidableEq

/-- Python's "a or b" on an optional string: falls through on a missing key
and on the empty (falsy) string. -/
def orString (a : Option String) (b : String) : String :=
  match a with
  | some s => if s = "" then b else s
  | none => b

/-- Name resolution in search_tool.SearchCandidatesTool.execute: the first
truthy name-like field, else the "Student " prefix of the id. -/
def resolveName (p : Profile) (sid : String) : String :=
  orString p.name (orString p.full_name (orString p.student_name
    (orString p.display_name ("Student " ++ sid.take 8))))

/-- The deduplicating match-to-candidate loop of search_tool: a match whose
student_id was already seen is skipped (even if the seen occurrence had no
profile row), and a match without a profile row contributes nothing. -/
def buildMatches (profiles : String → Option Profile) :
    List SearchMatch → List String → List Candidate
  | [], _ => []
  | m :: ms, seen =>
    if m.student_id ∈ seen then buildMatches profiles ms seen
    else
      match profiles m.student_id with
      | none => buildMatches profiles ms (m.student_id :: seen)
      | some p =>
        { student_id := m.student_id,
          name := resolveName p m.student_id,
          skills := p.skills.getD "N/A",
          github_username := p.github_username.getD "N/A",
          resume_similarity := m.similarity,
          resume_text := m.resume_text.take 500 }
          :: buildMatches profiles ms (m.student_id :: seen)

/-- search_tool.SearchCandidatesTool.execute.  The external search (and the
profile lookups) are the oracle inputs; an exception anywhere in the try
block yields the failure result with the state untouched, because the
assignment to state.candidates is the last statement of the block. -/
def SearchCandidatesTool.execute (s : AgentState) (profiles : String → Option Profile)
    (searchResult : Except String (List SearchMatch)) : ToolResult × AgentState :=
  match searchResult with
  | .error e => ({ tool_name := "search_candidates", success := false, error := some e }, s)
  | .ok ms =>
    let enriched_matches := buildMatches profiles ms []
    ({ tool_name := "search_candidates", success := true },
     { s with candidates := enriched_matches })

/-- The GitHub payload a per-candidate analysis returns.  The per-candidate
helper catches every exception and returns an empty payload, so it is total. -/
structure GithubPayload where
  github_projects : List Project := []
  portfolio_summary : Option String := none
deriving Repr, DecidableEq

/-- github_tool.GitHubAnalysisTool._analyze_candidate_github: a falsy or
"N/A" username short-circuits to the empty payload; otherwise the oracle
gives the (possibly empty, never raising) analysis result. -/
def analyzeCandidateGithub (gh : String → GithubPayload) (c : Candidate) : GithubPayload :=
  if c.github_username = "" || c.github_username = "N/A" then {}
  else gh c.student_id

/-- The enriched_dict of github_tool: keyed by student_id over the pending
(not yet github_analyzed) candidates; a duplicated key keeps the last entry. -/
def githubEnrichedDict (gh : String → GithubPayload) (pending : List Candidate)
    (sid : String) : Option GithubPayload :=
  ((pending.filter (fun p => p.student_id = sid)).getLast?).map (analyzeCandidateGithub gh)

/-- The candidate-list transformation of github_tool's success path: fan
out over the pending (not yet github_analyzed) candidates, merge each result
back by student_id and set the flag; the "if tasks:" guard of the source
skips the merge when nothing is pending. -/
def githubCands (gh : String → GithubPayload) (l : List Candidate) : List Candidate :=
  let pending := l.filter (fun c => !c.github_analyzed)
  if pending.isEmpty then l
  else
    l.map (fun c =>
      match githubEnrichedDict gh pending c.student_id with
      | some pl =>
        { c with github_projects := pl.github_projects,
                 portfolio_summary := pl.portfolio_summary,
                 github_analyzed := true }
      | none => c)

/-- github_tool.GitHubAnalysisTool.execute.  The embedding call can raise
(failure path); each per-candidate analysis is total.  Note the recompute of
enriched_candidates filters on the github flag only. -/
def GitHubAnalysisTool.execute (s : AgentState)
    (input : Except String (String → GithubPayload)) : ToolResult × AgentState :=
  match input with
  | .error e => ({ tool_name := "analyze_github", success := false, error := some e }, s)
  | .ok gh =>
    let cands := githubCands gh s.candidates
    ({ tool_name := "analyze_github", success := true },
     { s with candidates := cands,
              enriched_candidates := cands.filter (fun c => c.github_analyzed) })

/-- The candidate-list transformation of personality_tool's success path:
fan out over the pending (not yet personality_analyzed) candidates, write the
fetched data back by student_id and set the flag; the "if tasks:" guard of
the source skips the merge when nothing is pending. -/
def personalityCands (pf : String → Option String) (l : List Candidate) : List Candidate :=
  let pending := l.filter (fun c => !c.personality_analyzed)
  let keys := pending.map (fun c => c.student_id)
  if pending.isEmpty then l
  else
    l.map (fun c =>
      if keys.contains c.student_id then
        { c with personality_data := pf c.student_id, personality_analyzed := true }
      else c)

/-- personality_tool.PersonalityAnalysisTool.execute.  The per-candidate
fetch is total (it catches its own exceptions and yields data = None); the
oracle maps a student_id to the fetched data.  Note the recompute of
enriched_candidates filters on either enrichment flag. -/
def PersonalityAnalysisTool.execute (s : AgentState)
    (input : Except String (String → Option String)) : ToolResult × AgentState :=
  match input with
  | .error e => ({ tool_name := "get_personality", success := false, error := some e }, s)
  | .ok pf =>
    let cands := personalityCands pf s.candidates
    ({ tool_name := "get_personality", success := true },
     { s with candidates := cands,
              enriched_candidates :=
                cands.filter (fun c => c.github_analyzed || c.personality_analyzed) })

/-- One item of the JSON array returned by the ranking backend; any of the
expected keys may be missing (modelled as `none`). -/
structure LLMRanking where
  fit_score : Option Rat := none
  evaluation_bullets : Option (List String) := none
  notable_github_projects : Option (List String) := none
  next_step : Option String := none
  personality_insight : Option String := none
deriving Repr, DecidableEq

/-- The per-candidate merge of ranking_tool: original fields are kept and the
five scoring keys are written, with the source's dict-get defaults. -/
def mergeRanking (c : Candidate) (lr : LLMRanking) : Candidate :=
  { c with fit_score := some (lr.fit_score.getD 5),
           evaluation_bullets := lr.evaluation_bullets.getD [],
           notable_github_projects := lr.notable_github_projects.getD [],
           next_step := some (lr.next_step.getD "Review"),
           personality_insight := some (lr.personality_insight.getD "") }

/-- The index-based merge loop of ranking_tool.RankingTool.execute: the i-th
candidate is merged with the i-th LLM ranking when one exists, and kept
unchanged (no scoring fields written) when the rankings list is shorter. -/
def rankMerge : List Candidate → List LLMRanking → List Candidate
  | [], _ => []
  | c :: cs, [] => c :: cs
  | c :: cs, lr :: lrs => mergeRanking c lr :: rankMerge cs lrs

/-- ranking_tool.RankingTool.execute.  The router call (and context building)
can raise: failure path with the state untouched.  On success the tool
replaces final_rankings and itself writes goal_met := check_goal. -/
def RankingTool.execute (s : AgentState)
    (llm : Except String (List LLMRanking)) : ToolResult × AgentState :=
  match llm with
  | .error e => ({ tool_name := "rank_candidates", success := false, error := some e }, s)
  | .ok lrs =>
    let ranked := rankMerge s.candidates lrs
    let s1 := { s with final_rankings := ranked }
    let s2 := { s1 with goal_met := s1.check_goal }
    ({ tool_name := "rank_candidates", success := true }, s2)

/-- The external world of one run: the decision backend's proposal as a
function of the state it is shown, and the per-iteration oracle inputs of
each capability (indexed by the iteration counter at execution time). -/
structure Env where
  decide_next_action : AgentState → AgentDecision
  profiles : String → Option Profile
  searchInput : Nat → Except String (List SearchMatch)
  githubInput : Nat → Except String (String → GithubPayload)
  personalityInput : Nat → Except String (String → Option String)
  rankInput : Nat → Except String (List LLMRanking)

/-- The orchestrator's tool registry (agentic_orchestrator.__init__) applied
to a proposed name: the four registered capabilities, `none` for any other
name ("finish" is handled before this lookup, as in the source). -/
def execTool (env : Env) (s : AgentState) (name : String) :
    Option (ToolResult × AgentState) :=
  if name = "search_candidates" then
    some (SearchCandidatesTool.execute s env.profiles (env.searchInput s.iterations))
  else if name = "analyze_github" then
    some (GitHubAnalysisTool.execute s (env.githubInput s.iterations))
  else if name = "get_personality" then
    some (PersonalityAnalysisTool.execute s (env.personalityInput s.iterations))
  else if name = "rank_candidates" then
    some (RankingTool.execute s (env.rankInput s.iterations))
  else none

/-- The body of the while loop of agentic_orchestrator.find_candidates,
entered after `state.iterations += 1`.  Returns the new state and whether
the loop breaks: a "finish" proposal re-evaluates the goal and breaks; an
unknown tool name continues without logging; an executed tool is logged and
the loop breaks with goal_met := true when check_goal holds afterwards. -/
def loopBody (env : Env) (s : AgentState) : AgentState × Bool :=
  let d := env.decide_next_action s
  if d.tool_name = "finish" then
    ({ s with goal_met := s.check_goal }, true)
  else
    match execTool env s d.tool_name with
    | none => (s, false)
    | some (r, s2) =>
      let s3 := s2.add_execution_log d r
      if s3.check_goal then ({ s3 with goal_met := true }, true)
      else (s3, false)

/-- The while loop of find_candidates, fuelled.  Each pass first checks
should_continue, then increments iterations and runs the body.  Running it
with fuel = max_iterations computes the loop exactly (each pass increments
iterations by one and the body never touches the counters, so the condition
is false once the fuel would be needed); `runLoop_fuel_stable` below proves
the fuel is irrelevant beyond that point. -/
def runLoop (env : Env) : Nat → AgentState → AgentState
  | 0, s => s
  | fuel + 1, s =>
    if s.should_continue then
      let s1 := { s with iterations := s.iterations + 1 }
      let out := loopBody env s1
      if out.2 then out.1 else runLoop env fuel out.1
    else s

/-- agentic_orchestrator.AgenticRecruitmentOrchestrator.find_candidates:
initialize the run state with the caller's thresholds (remaining fields at
their dataclass defaults) and run the decision loop; the returned report is
read off the final state. -/
def AgenticRecruitmentOrchestrator.find_candidates (env : Env) (query : String)
    (min_candidates : Nat) (min_fit_score : Rat) (max_iterations : Nat) : AgentState :=
  runLoop env max_iterations
    { query := query, min_candidates := min_candidates,
      min_fit_score := min_fit_score, max_iterations := max_iterations }

/-- Specification-side counter mirroring `runLoop`: the number of loop passes
that append no execution-log entry, i.e. passes whose proposal is "finish"
or an unknown capability name. -/
def skippedCount (env : Env) : Nat → AgentState → Nat
  | 0, _ => 0
  | fuel + 1, s =>
    if s.should_continue then
      let s1 := { s with iterations := s.iterations + 1 }
      let d := env.decide_next_action s1
      if d.tool_name = "finish" then 1
      else
        match execTool env s1 d.tool_name with
        | none => 1 + skippedCount env fuel s1
        | some (r, s2) =>
          let s3 := s2.add_execution_log d r
          if s3.check_goal then 0 else skippedCount env fuel s3
    else 0

/-! ## Frame lemmas for the capabilities -/

/-- Search never touches the counters, the goal flag, the rankings or the log. -/
theorem searchExecute_frame (s : AgentState) (prof : String → Option Profile)
    (inp : Except String (List SearchMatch)) :
    (SearchCandidatesTool.execute s prof inp).2.iterations = s.iterations ∧
    (SearchCandidatesTool.execute s prof inp).2.max_iterations = s.max_iterations ∧
    (SearchCandidatesTool.execute s prof inp).2.min_candidates = s.min_candidates ∧
    (SearchCandidatesTool.execute s prof inp).2.min_fit_score = s.min_fit_score ∧
    (SearchCandidatesTool.execute s prof inp).2.goal_met = s.goal_met ∧
    (SearchCandidatesTool.execute s prof inp).2.final_rankings = s.final_rankings ∧
    (SearchCandidatesTool.execute s prof inp).2.execution_log = s.execution_log ∧
    (SearchCandidatesTool.execute s prof inp).2.tools_used = s.tools_used := by
  cases inp <;> simp [SearchCandidatesTool.execute]

/-- GitHub enrichment never touches the counters, the goal flag, the rankings
or the log. -/
theorem githubExecute_frame (s : AgentState)
    (inp : Except String (String → GithubPayload)) :
    (GitHubAnalysisTool.execute s inp).2.iterations = s.iterations ∧
    (GitHubAnalysisTool.execute s inp).2.max_iterations = s.max_iterations ∧
    (GitHubAnalysisTool.execute s inp).2.min_candidates = s.min_candidates ∧
    (GitHubAnalysisTool.execute s inp).2.min_fit_score = s.min_fit_score ∧
    (GitHubAnalysisTool.execute s inp).2.goal_met = s.goal_met ∧
    (GitHubAnalysisTool.execute s inp).2.final_rankings = s.final_rankings ∧
    (GitHubAnalysisTool.execute s inp).2.execution_log = s.execution_log ∧
    (GitHubAnalysisTool.execute s inp).2.tools_used = s.tools_used := by
  cases inp <;> simp [GitHubAnalysisTool.execute]

/-- Personality enrichment never touches the counters, the goal flag, the
rankings or the log. -/
theorem personalityExecute_frame (s : AgentState)
    (inp : Except String (String → Option String)) :
    (PersonalityAnalysisTool.execute s inp).2.iterations = s.iterations ∧
    (PersonalityAnalysisTool.execute s inp).2.max_iterations = s.max_iterations ∧
    (PersonalityAnalysisTool.execute s inp).2.min_candidates = s.min_candidates ∧
    (PersonalityAnalysisTool.execute s inp).2.min_fit_score = s.min_fit_score ∧
    (PersonalityAnalysisTool.execute s inp).2.goal_met = s.goal_met ∧
    (PersonalityAnalysisTool.execute s inp).2.final_rankings = s.final_rankings ∧
    (PersonalityAnalysisTool.execute s inp).2.execution_log = s.execution_log ∧
    (PersonalityAnalysisTool.execute s inp).2.tools_used = s.tools_used := by
  cases inp <;> simp [PersonalityAnalysisTool.execute]

/-- Ranking never touches the counters, the candidates or the log (it does
write final_rankings and goal_met on success). -/
theorem rankingExecute_frame (s : AgentState)
    (inp : Except String (List LLMRanking)) :
    (RankingTool.execute s inp).2.iterations = s.iterations ∧
    (RankingTool.execute s inp).2.max_iterations = s.max_iterations ∧
    (RankingTool.execute s inp).2.min_candidates = s.min_candidates ∧
    (RankingTool.execute s inp).2.min_fit_score = s.min_fit_score ∧
    (RankingTool.execute s inp).2.candidates = s.candidates ∧
    (RankingTool.execute s inp).2.execution_log = s.execution_log ∧
    (RankingTool.execute s inp).2.tools_used = s.tools_used := by
  cases inp <;> simp [RankingTool.execute]

/-- Any registered capability leaves the iteration counters, the thresholds
and the execution log unchanged. -/
theorem execTool_frame (env : Env) (s : AgentState) (name : String)
    (r : ToolResult) (s2 : AgentState) (h : execTool env s name = some (r, s2)) :
    s2.iterations = s.iterations ∧ s2.max_iterations = s.max_iterations ∧
    s2.min_candidates = s.min_candidates ∧ s2.min_fit_score = s.min_fit_score ∧
    s2.execution_log = s.execution_log := by
  unfold execTool at h
  split at h
  · injection h with h
    obtain ⟨hf1, hf2, hf3, hf4, _, _, hf7, _⟩ :=
      searchExecute_frame s env.profiles (env.searchInput s.iterations)
    have h2 : (SearchCandidatesTool.execute s env.profiles (env.searchInput s.iterations)).2 = s2 :=
      congrArg Prod.snd h
    rw [h2] at hf1 hf2 hf3 hf4 hf7
    exact ⟨hf1, hf2, hf3, hf4, hf7⟩
  · split at h
    · injection h with h
      obtain ⟨hf1, hf2, hf3, hf4, _, _, hf7, _⟩ :=
        githubExecute_frame s (env.githubInput s.iterations)
      have h2 : (GitHubAnalysisTool.execute s (env.githubInput s.iterations)).2 = s2 :=
        congrArg Prod.snd h
      rw [h2] at hf1 hf2 hf3 hf4 hf7
      exact ⟨hf1, hf2, hf3, hf4, hf7⟩
    · split at h
      · injection h with h
        obtain ⟨hf1, hf2, hf3, hf4, _, _, hf7, _⟩ :=
          personalityExecute_frame s (env.personalityInput s.iterations)
        have h2 : (PersonalityAnalysisTool.execute s (env.personalityInput s.iterations)).2 = s2 :=
          congrArg Prod.snd h
        rw [h2] at hf1 hf2 hf3 hf4 hf7
        exact ⟨hf1, hf2, hf3, hf4, hf7⟩
      · split at h
        · injection h with h
          obtain ⟨hf1, hf2, hf3, hf4, _, hf6, hf7⟩ :=
            rankingExecute_frame s (env.rankInput s.iterations)
          have h2 : (RankingTool.execute s (env.rankInput s.iterations)).2 = s2 :=
            congrArg Prod.snd h
          rw [h2] at hf1 hf2 hf3 hf4 hf6
          exact ⟨hf1, hf2, hf3, hf4, hf6⟩
        · exact Option.noConfusion h

/-! ## C9 — ranking total failure leaves the state unchanged -/

/-- C9: if the ranking backend call raises, RankingTool.execute leaves the
whole run state (in particular final_rankings) unchanged and returns a
failure Outcome carrying the error instead of propagating the exception. -/
theorem C9_ranking_failure_atomic (s : AgentState) (e : String) :
    (RankingTool.execute s (Except.error e)).2 = s ∧
    (RankingTool.execute s (Except.error e)).2.final_rankings = s.final_rankings ∧
    (RankingTool.execute s (Except.error e)).1.success = false ∧
    (RankingTool.execute s (Except.error e)).1.error = some e ∧
    (RankingTool.execute s (Except.error e)).1.tool_name = "rank_candidates" := by
  simp [RankingTool.execute]

/-! ## C10 — router statistics are total -/

/-- C10: get_stats never divides by zero: it returns 0 for
avg_tokens_per_call when total_calls = 0 and total_tokens / total_calls
otherwise, and it always returns all seven stat fields. -/
theorem C10_get_stats_total (r : RouterCounters) :
    (r.total_calls = 0 → (BaseLLMRouter.get_stats r).avg_tokens_per_call = 0) ∧
    (r.total_calls ≠ 0 →
      (BaseLLMRouter.get_stats r).avg_tokens_per_call
        = (r.total_tokens : Rat) / (r.total_calls : Rat)) ∧
    (BaseLLMRouter.get_stats r).model = r.model_name ∧
    (BaseLLMRouter.get_stats r).provider = r.provider ∧
    (BaseLLMRouter.get_stats r).size = r.size ∧
    (BaseLLMRouter.get_stats r).total_calls = r.total_calls ∧
    (BaseLLMRouter.get_stats r).total_tokens = r.total_tokens ∧
    (BaseLLMRouter.get_stats r).total_cost = r.total_cost := by
  refine ⟨fun h => ?_, fun h => ?_, rfl, rfl, rfl, rfl, rfl, rfl⟩
  · simp [BaseLLMRouter.get_stats, h]
  · simp [BaseLLMRouter.get_stats, Nat.pos_of_ne_zero h]

/-- Fresh router counters, as initialized by BaseLLMRouter.__init__ for the
DeepSeek configuration: no calls made yet. -/
def freshDeepSeekCounters : RouterCounters :=
  { model_name := "deepseek-ai/DeepSeek-V3-0324", provider := "huggingface",
    size := "large", total_tokens := 0, total_cost := 0, total_calls := 0 }

theorem C10_get_stats_total_witness :
    freshDeepSeekCounters.total_calls = 0 ∧
    (BaseLLMRouter.get_stats freshDeepSeekCounters).avg_tokens_per_call = 0 :=
  ⟨rfl, (C10_get_stats_total freshDeepSeekCounters).1 rfl⟩

/-! ## C2 — the rule-based fallback decision order -/

/-- A state with candidates found but none enriched yet, and nothing ranked:
the claim's tie-break order demands an enrichment capability here. -/
def stateC2 : AgentState :=
  { query := "q", candidates := [{ student_id := "s1" }] }

/-- C2 counterexample: with candidates present but none enriched, both
routers' rule-based fallback proposes "rank_candidates", not an enrichment
capability ("analyze_github" / "get_personality") as the claimed tie-break
order requires. -/
theorem C2_counterexample :
    stateC2.candidates ≠ [] ∧
    stateC2.candidates.all
      (fun c => !c.github_analyzed && !c.personality_analyzed) = true ∧
    stateC2.final_rankings = [] ∧
    (DeepSeekRouter.fallback_decision stateC2).tool_name = "rank_candidates" ∧
    (LlamaRouter.fallback_decision stateC2).tool_name = "rank_candidates" := by
  refine ⟨by decide, by decide, rfl, rfl, rfl⟩

/-- C2 (amended): the deterministic rule-based fallback of both routers
follows the order: search when no candidates exist; ranking as soon as
candidates exist but nothing is ranked (enrichment is never proposed by the
fallback); finish once rankings exist, regardless of the goal predicate or
the remaining iteration budget. -/
theorem C2_fallback_order (s : AgentState) :
    (s.candidates = [] →
      (DeepSeekRouter.fallback_decision s).tool_name = "search_candidates" ∧
      (LlamaRouter.fallback_decision s).tool_name = "search_candidates") ∧
    (s.candidates ≠ [] → s.final_rankings = [] →
      (DeepSeekRouter.fallback_decision s).tool_name = "rank_candidates" ∧
      (LlamaRouter.fallback_decision s).tool_name = "rank_candidates") ∧
    (s.candidates ≠ [] → s.final_rankings ≠ [] →
      (DeepSeekRouter.fallback_decision s).tool_name = "finish" ∧
      (LlamaRouter.fallback_decision s).tool_name = "finish") := by
  refine ⟨fun h => ?_, fun h h2 => ?_, fun h h2 => ?_⟩ <;>
    simp [DeepSeekRouter.fallback_decision, LlamaRouter.fallback_decision,
      List.isEmpty_iff, h] <;> simp [h2]

theorem C2_fallback_order_witness :
    stateC2.candidates ≠ [] ∧ stateC2.final_rankings = [] ∧
    (DeepSeekRouter.fallback_decision stateC2).tool_name = "rank_candidates" ∧
    (LlamaRouter.fallback_decision stateC2).tool_name = "rank_candidates" :=
  ⟨by decide, rfl,
   ((C2_fallback_order stateC2).2.1 (by decide) rfl).1,
   ((C2_fallback_order stateC2).2.1 (by decide) rfl).2⟩

/-! ## C8 — who writes goal_met -/

/-- A state for which a single successful ranking call flips goal_met. -/
def stateC8 : AgentState :=
  { query := "q", candidates := [{ student_id := "s1" }],
    min_candidates := 0, min_fit_score := 0 }

/-- C8 counterexample: RankingTool.execute itself writes goal_met (line
"state.goal_met = state.check_goal()" in ranking_tool.py): executing the
ranking capability alone, outside the orchestration loop, flips goal_met
from false to true. -/
theorem C8_counterexample :
    stateC8.goal_met = false ∧
    (RankingTool.execute stateC8 (Except.ok [{ fit_score := some 7 }])).2.goal_met = true := by
  refine ⟨rfl, by decide⟩

/-- C8 (amended): goal_met is written by the orchestration loop and
additionally by the ranking capability, which on success sets it to the goal
predicate of the updated state; the search and enrichment capabilities (and
a failed ranking call) never write it. -/
theorem C8_goal_met_writers (s : AgentState) (prof : String → Option Profile)
    (mi : Except String (List SearchMatch))
    (gi : Except String (String → GithubPayload))
    (pfi : Except String (String → Option String))
    (e : String) (lrs : List LLMRanking) :
    (SearchCandidatesTool.execute s prof mi).2.goal_met = s.goal_met ∧
    (GitHubAnalysisTool.execute s gi).2.goal_met = s.goal_met ∧
    (PersonalityAnalysisTool.execute s pfi).2.goal_met = s.goal_met ∧
    (RankingTool.execute s (Except.error e)).2.goal_met = s.goal_met ∧
    (RankingTool.execute s (Except.ok lrs)).2.goal_met
      = AgentState.check_goal { s with final_rankings := rankMerge s.candidates lrs } := by
  refine ⟨(searchExecute_frame s prof mi).2.2.2.2.1,
          (githubExecute_frame s gi).2.2.2.2.1,
          (personalityExecute_frame s pfi).2.2.2.2.1, rfl, rfl⟩

/-! ## C4 — ranking's order-preserving index merge -/

/-- Closed form of the ranking merge loop: the first min(|cs|, |lrs|)
candidates are merged with their index-matched ranking, the tail beyond the
rankings list is kept unchanged. -/
theorem rankMerge_eq (cs : List Candidate) (lrs : List LLMRanking) :
    rankMerge cs lrs = List.zipWith mergeRanking cs lrs ++ cs.drop lrs.length := by
  induction cs generalizing lrs with
  | nil => cases lrs <;> simp [rankMerge]
  | cons c cs ih =>
    cases lrs with
    | nil => simp [rankMerge]
    | cons lr lrs => simp [rankMerge, ih]

/-- The length of the merged rankings equals the number of candidates. -/
theorem rankMerge_length (cs : List Candidate) (lrs : List LLMRanking) :
    (rankMerge cs lrs).length = cs.length := by
  rw [rankMerge_eq]
  simp
  omega

/-- A state with one candidate for which the backend computes no score. -/
def stateC4 : AgentState :=
  { query := "q", candidates := [{ student_id := "s1" }] }

/-- C4 counterexample: when the ranking backend returns fewer rankings than
there are candidates (here: an empty list), the unscored candidate is kept
verbatim in final_rankings: it receives no neutral default fit score and no
rationale noting missing data, contrary to the claim. -/
theorem C4_counterexample :
    (RankingTool.execute stateC4 (Except.ok [])).2.final_rankings
      = [{ student_id := "s1" }] ∧
    ((RankingTool.execute stateC4 (Except.ok [])).2.final_rankings.map
      (fun c => c.fit_score)) = [none] ∧
    ((RankingTool.execute stateC4 (Except.ok [])).2.final_rankings.map
      (fun c => c.evaluation_bullets)) = [[]] := by
  refine ⟨rfl, rfl, rfl⟩

/-- C4 (amended): after a successful ranking call, final_rankings has
exactly one entry per candidate, in candidates order; the i-th entry merges
the i-th candidate with the i-th backend ranking when one exists (original
fields preserved, scoring fields written, fit_score defaulting to 5 when the
ranking entry lacks one), and a candidate beyond the length of the backend's
ranking list is kept entirely unchanged, with no default score and no
rationale. -/
theorem C4_ranking_merge (s : AgentState) (lrs : List LLMRanking)
    (c : Candidate) (lr : LLMRanking) :
    (RankingTool.execute s (Except.ok lrs)).2.final_rankings
      = List.zipWith mergeRanking s.candidates lrs ++ s.candidates.drop lrs.length ∧
    (RankingTool.execute s (Except.ok lrs)).2.final_rankings.length
      = s.candidates.length ∧
    (mergeRanking c lr).student_id = c.student_id ∧
    (mergeRanking c lr).name = c.name ∧
    (mergeRanking c lr).skills = c.skills ∧
    (mergeRanking c lr).github_username = c.github_username ∧
    (mergeRanking c lr).resume_similarity = c.resume_similarity ∧
    (mergeRanking c lr).resume_text = c.resume_text ∧
    (mergeRanking c lr).github_analyzed = c.github_analyzed ∧
    (mergeRanking c lr).personality_analyzed = c.personality_analyzed ∧
    (mergeRanking c lr).github_projects = c.github_projects ∧
    (mergeRanking c lr).portfolio_summary = c.portfolio_summary ∧
    (mergeRanking c lr).personality_data = c.personality_data ∧
    (mergeRanking c lr).fit_score = some (lr.fit_score.getD 5) ∧
    (mergeRanking c lr).evaluation_bullets = lr.evaluation_bullets.getD [] ∧
    (mergeRanking c lr).notable_github_projects = lr.notable_github_projects.getD [] ∧
    (mergeRanking c lr).next_step = some (lr.next_step.getD "Review") ∧
    (mergeRanking c lr).personality_insight = some (lr.personality_insight.getD "") := by
  refine ⟨?_, ?_, rfl, rfl, rfl, rfl, rfl, rfl, rfl, rfl, rfl, rfl, rfl, rfl, rfl, rfl, rfl, rfl⟩
  · simpa [RankingTool.execute] using rankMerge_eq s.candidates lrs
  · simpa [RankingTool.execute] using rankMerge_length s.candidates lrs

/-! ## C6 — enriched_candidates is recomputed from candidates -/

/-- After the GitHub fan-out merge every candidate carries the github flag:
the per-candidate analysis is total (it catches its own errors), so every
pending candidate is merged back and flagged. -/
theorem githubCands_all_flagged (gh : String → GithubPayload) (l : List Candidate) :
    ∀ c ∈ githubCands gh l, c.github_analyzed = true := by
  intro c hc
  simp only [githubCands] at hc
  split at hc
  · next hp =>
    have hnil : l.filter (fun c => !c.github_analyzed) = [] := by
      simpa [List.isEmpty_iff] using hp
    have := List.filter_eq_nil_iff.mp hnil c hc
    simpa using this
  · next hp =>
    obtain ⟨a, ha, rfl⟩ := List.mem_map.mp hc
    cases hdict : githubEnrichedDict gh (l.filter (fun c => !c.github_analyzed)) a.student_id with
    | some pl => simp [hdict]
    | none =>
      simp only [hdict]
      by_contra hflag
      have haf : a ∈ (l.filter (fun c => !c.github_analyzed)).filter
          (fun p => p.student_id = a.student_id) := by
        refine List.mem_filter.mpr ⟨List.mem_filter.mpr ⟨ha, ?_⟩, by simp⟩
        simpa using hflag
      have hmap : ((l.filter (fun c => !c.github_analyzed)).filter
          (fun p => p.student_id = a.student_id)).getLast?.map
            (analyzeCandidateGithub gh) = none := hdict
      have hnil : (l.filter (fun c => !c.github_analyzed)).filter
          (fun p => p.student_id = a.student_id) = [] :=
        List.getLast?_eq_none_iff.mp (Option.map_eq_none'.mp hmap)
      rw [hnil] at haf
      exact (List.not_mem_nil a) haf

/-- Membership survives the GitHub merge: every input candidate yields an
output candidate with the same identity key and personality flag. -/
theorem githubCands_exists_sid (gh : String → GithubPayload) (l : List Candidate)
    (c : Candidate) (hc : c ∈ l) :
    ∃ c' ∈ githubCands gh l,
      c'.student_id = c.student_id ∧ c'.personality_analyzed = c.personality_analyzed := by
  simp only [githubCands]
  split
  · exact ⟨c, hc, rfl, rfl⟩
  · refine ⟨_, List.mem_map_of_mem _ hc, ?_, ?_⟩ <;>
      cases hdict : githubEnrichedDict gh (l.filter (fun c => !c.github_analyzed))
        c.student_id <;> simp [hdict]

/-- C6: right after either enrichment capability succeeds,
enriched_candidates equals exactly the sublist of candidates with at least
one enrichment flag set; on failure the state is untouched; and a candidate
enriched only by personality is still present (by identity key, flag kept)
in enriched_candidates after a subsequent GitHub-enrichment run. -/
theorem C6_enriched_derived (s : AgentState) (gh : String → GithubPayload)
    (pf : String → Option String) (e1 e2 : String) :
    ((GitHubAnalysisTool.execute s (Except.ok gh)).2.enriched_candidates
      = (GitHubAnalysisTool.execute s (Except.ok gh)).2.candidates.filter
          (fun c => c.github_analyzed || c.personality_analyzed)) ∧
    ((PersonalityAnalysisTool.execute s (Except.ok pf)).2.enriched_candidates
      = (PersonalityAnalysisTool.execute s (Except.ok pf)).2.candidates.filter
          (fun c => c.github_analyzed || c.personality_analyzed)) ∧
    ((GitHubAnalysisTool.execute s (Except.error e1)).2 = s) ∧
    ((PersonalityAnalysisTool.execute s (Except.error e2)).2 = s) ∧
    (∀ c ∈ s.candidates, c.personality_analyzed = true →
      ∃ c' ∈ (GitHubAnalysisTool.execute s (Except.ok gh)).2.enriched_candidates,
        c'.student_id = c.student_id ∧ c'.personality_analyzed = true) := by
  have hall := githubCands_all_flagged gh s.candidates
  have h1 : (githubCands gh s.candidates).filter (fun c => c.github_analyzed)
      = githubCands gh s.candidates :=
    List.filter_eq_self.mpr (fun a ha => by simp [hall a ha])
  have h2 : (githubCands gh s.candidates).filter
      (fun c => c.github_analyzed || c.personality_analyzed)
      = githubCands gh s.candidates :=
    List.filter_eq_self.mpr (fun a ha => by simp [hall a ha])
  have he : (GitHubAnalysisTool.execute s (Except.ok gh)).2.enriched_candidates
      = (githubCands gh s.candidates).filter (fun c => c.github_analyzed) := rfl
  refine ⟨?_, rfl, rfl, rfl, ?_⟩
  · show (githubCands gh s.candidates).filter (fun c => c.github_analyzed)
      = (githubCands gh s.candidates).filter
          (fun c => c.github_analyzed || c.personality_analyzed)
    rw [h1, h2]
  · intro c hc hcp
    obtain ⟨c', hc', hsid, hpers⟩ := githubCands_exists_sid gh s.candidates c hc
    refine ⟨c', ?_, hsid, by rw [hpers, hcp]⟩
    rw [he, h1]
    exact hc'

/-- A candidate enriched only by personality. -/
def candC6 : Candidate := { student_id := "s1", personality_analyzed := true }

/-- A state holding only that candidate. -/
def stateC6 : AgentState := { query := "q", candidates := [candC6] }

theorem C6_enriched_derived_witness :
    ∃ c' ∈ (GitHubAnalysisTool.execute stateC6
        (Except.ok (fun _ => {}))).2.enriched_candidates,
      c'.student_id = candC6.student_id ∧ c'.personality_analyzed = true :=
  (C6_enriched_derived stateC6 (fun _ => {}) (fun _ => none) "e" "e").2.2.2.2
    candC6 (List.mem_singleton.mpr rfl) rfl

/-! ## C7 — candidate identity keys: deduplication vs. merging -/

/-- The deduplicating search loop produces pairwise distinct identity keys,
none of which was in the seen-set it started from. -/
theorem buildMatches_sid_nodup (prof : String → Option Profile)
    (ms : List SearchMatch) (seen : List String) :
    ((buildMatches prof ms seen).map (fun c => c.student_id)).Nodup ∧
    ∀ sid ∈ (buildMatches prof ms seen).map (fun c => c.student_id), sid ∉ seen := by
  induction ms generalizing seen with
  | nil => simp [buildMatches]
  | cons m ms ih =>
    simp only [buildMatches]
    split
    · exact ih seen
    · next hmem =>
      cases hprof : prof m.student_id with
      | none =>
        obtain ⟨h1, h2⟩ := ih (m.student_id :: seen)
        exact ⟨h1, fun sid hs hseen => h2 sid hs (List.mem_cons_of_mem _ hseen)⟩
      | some p =>
        obtain ⟨h1, h2⟩ := ih (m.student_id :: seen)
        constructor
        · simp only [List.map_cons, List.nodup_cons]
          exact ⟨fun hmem2 => h2 _ hmem2 (List.mem_cons_self _ _), h1⟩
        · intro sid hs
          simp only [List.map_cons, List.mem_cons] at hs
          rcases hs with rfl | hs
          · exact hmem
          · exact fun hseen => h2 sid hs (List.mem_cons_of_mem _ hseen)

/-- The GitHub merge rewrites candidates in place: the identity-key sequence
is untouched. -/
theorem githubCands_sids (gh : String → GithubPayload) (l : List Candidate) :
    (githubCands gh l).map (fun c => c.student_id) = l.map (fun c => c.student_id) := by
  simp only [githubCands]
  split
  · rfl
  · rw [List.map_map]
    refine List.map_congr_left (fun a ha => ?_)
    cases hdict : githubEnrichedDict gh (l.filter (fun c => !c.github_analyzed))
      a.student_id <;> simp [hdict]

/-- The personality merge rewrites candidates in place: the identity-key
sequence is untouched. -/
theorem personalityCands_sids (pf : String → Option String) (l : List Candidate) :
    (personalityCands pf l).map (fun c => c.student_id) = l.map (fun c => c.student_id) := by
  simp only [personalityCands]
  split
  · rfl
  · rw [List.map_map]
    refine List.map_congr_left (fun a ha => ?_)
    simp only [Function.comp_apply]
    split <;> rfl

/-- A state holding one already-enriched candidate for identity key "s1". -/
def stateC7 : AgentState :=
  { query := "q", candidates := [{ student_id := "s1", github_analyzed := true }] }

/-- The profile table for the counterexample run. -/
def profC7 : String → Option Profile := fun _ => some { name := some "Alice" }

/-- C7 counterexample: a later search returning the same identity key "s1"
does not merge into the existing record: state.candidates is rebuilt from
scratch and the previously attached enrichment flag is lost. -/
theorem C7_counterexample :
    (stateC7.candidates.map (fun c => c.github_analyzed)) = [true] ∧
    ((SearchCandidatesTool.execute stateC7 profC7
        (Except.ok [{ student_id := "s1" }])).2.candidates.map
      (fun c => c.student_id)) = ["s1"] ∧
    ((SearchCandidatesTool.execute stateC7 profC7
        (Except.ok [{ student_id := "s1" }])).2.candidates.map
      (fun c => c.github_analyzed)) = [false] := by
  refine ⟨rfl, by decide, by decide⟩

/-- C7 (amended): identity keys are pairwise distinct within candidates
after every search (the search loop deduplicates by student_id, keeping the
first occurrence), and the enrichment and ranking capabilities preserve the
identity-key sequence; but a repeated search replaces state.candidates
wholesale with records built only from the new matches — the result is
independent of the previous candidates, so previously attached data (such as
enrichment flags) is discarded rather than merged. -/
theorem C7_identity_keys (s t : AgentState) (prof : String → Option Profile)
    (ms : List SearchMatch) (gi : Except String (String → GithubPayload))
    (pfi : Except String (String → Option String))
    (ri : Except String (List LLMRanking)) :
    (((SearchCandidatesTool.execute s prof (Except.ok ms)).2.candidates.map
        (fun c => c.student_id)).Nodup) ∧
    ((SearchCandidatesTool.execute s prof (Except.ok ms)).2.candidates
      = buildMatches prof ms []) ∧
    ((SearchCandidatesTool.execute s prof (Except.ok ms)).2.candidates
      = (SearchCandidatesTool.execute t prof (Except.ok ms)).2.candidates) ∧
    ((GitHubAnalysisTool.execute s gi).2.candidates.map (fun c => c.student_id)
      = s.candidates.map (fun c => c.student_id)) ∧
    ((PersonalityAnalysisTool.execute s pfi).2.candidates.map (fun c => c.student_id)
      = s.candidates.map (fun c => c.student_id)) ∧
    ((RankingTool.execute s ri).2.candidates = s.candidates) := by
  refine ⟨(buildMatches_sid_nodup prof ms []).1, rfl, rfl, ?_, ?_,
    (rankingExecute_frame s ri).2.2.2.2.1⟩
  · cases gi with
    | error e => rfl
    | ok gh => exact githubCands_sids gh s.candidates
  · cases pfi with
    | error e => rfl
    | ok pf => exact personalityCands_sids pf s.candidates

/-! ## Loop lemmas and C5 — termination -/

/-- The while condition: continue exactly while the goal is unmet and the
iteration budget is not exhausted. -/
theorem should_continue_iff (s : AgentState) :
    s.should_continue = true ↔ s.goal_met = false ∧ s.iterations < s.max_iterations := by
  cases hb : s.goal_met <;> simp [AgentState.should_continue, hb]

/-- Appending to the execution log touches neither the counters, the flags
nor the candidate collections, and grows the log by exactly one entry. -/
theorem add_execution_log_frame (s : AgentState) (d : AgentDecision) (r : ToolResult) :
    (s.add_execution_log d r).iterations = s.iterations ∧
    (s.add_execution_log d r).max_iterations = s.max_iterations ∧
    (s.add_execution_log d r).goal_met = s.goal_met ∧
    (s.add_execution_log d r).final_rankings = s.final_rankings ∧
    (s.add_execution_log d r).min_candidates = s.min_candidates ∧
    (s.add_execution_log d r).min_fit_score = s.min_fit_score ∧
    (s.add_execution_log d r).execution_log.length = s.execution_log.length + 1 := by
  simp [AgentState.add_execution_log]

/-- The loop body never touches the iteration counters (the increment
happens before the body in `runLoop`). -/
theorem loopBody_frame (env : Env) (s : AgentState) :
    (loopBody env s).1.iterations = s.iterations ∧
    (loopBody env s).1.max_iterations = s.max_iterations := by
  simp only [loopBody]
  split
  · exact ⟨rfl, rfl⟩
  · cases hex : execTool env s (env.decide_next_action s).tool_name with
    | none => exact ⟨rfl, rfl⟩
    | some pr =>
      obtain ⟨r, s2⟩ := pr
      obtain ⟨hf1, hf2, _, _, _⟩ := execTool_frame env s _ r s2 hex
      simp only []
      split <;>
        exact ⟨by simp [AgentState.add_execution_log, hf1],
               by simp [AgentState.add_execution_log, hf2]⟩

/-- A state whose while condition is false is a fixed point of the loop. -/
theorem runLoop_stop (env : Env) (fuel : Nat) (s : AgentState)
    (h : s.should_continue = false) : runLoop env fuel s = s := by
  cases fuel <;> simp [runLoop, h]

/-- The loop never drives iterations above max_iterations. -/
theorem runLoop_iterations_le (env : Env) (fuel : Nat) :
    ∀ s : AgentState, s.iterations ≤ s.max_iterations →
      (runLoop env fuel s).iterations ≤ s.max_iterations := by
  induction fuel with
  | zero => intro s h; simpa [runLoop] using h
  | succ n ih =>
    intro s h
    simp only [runLoop]
    split
    · next hsc =>
      have hlt : s.iterations < s.max_iterations := ((should_continue_iff s).mp hsc).2
      obtain ⟨hb1, hb2⟩ := loopBody_frame env { s with iterations := s.iterations + 1 }
      split
      · rw [hb1]; simpa using hlt
      · have hrec := ih (loopBody env { s with iterations := s.iterations + 1 }).1
          (by rw [hb1, hb2]; simpa using hlt)
        rw [hb2] at hrec
        exact hrec
    · exact h

/-- Fuel adequacy: with enough fuel to exhaust the iteration budget, any
extra fuel changes nothing — the fuelled recursion computes the while loop. -/
theorem runLoop_fuel_stable (env : Env) (fuel k : Nat) :
    ∀ s : AgentState, s.max_iterations ≤ s.iterations + fuel →
      runLoop env (fuel + k) s = runLoop env fuel s := by
  induction fuel with
  | zero =>
    intro s h
    have hsc : s.should_continue = false := by
      cases hs : s.should_continue
      · rfl
      · exfalso
        have := ((should_continue_iff s).mp hs).2
        omega
    rw [Nat.zero_add, runLoop_stop env k s hsc]
    rfl
  | succ n ih =>
    intro s h
    have heq : n + 1 + k = (n + k) + 1 := by omega
    rw [heq]
    simp only [runLoop]
    by_cases hsc : s.should_continue = true
    · simp only [hsc, if_true]
      obtain ⟨hb1, hb2⟩ := loopBody_frame env { s with iterations := s.iterations + 1 }
      split
      · rfl
      · exact ih (loopBody env { s with iterations := s.iterations + 1 }).1
          (by rw [hb1, hb2]; simp; omega)
    · simp [hsc]

/-- C5: for every max_iterations = N > 0 the loop terminates after at most N
iterations: the final iteration count is at most N, extra fuel beyond N
never changes the outcome (the while condition must already be false, i.e.
iterations >= max_iterations or goal_met), the body after the increment
never changes the counter (each pass increments it by exactly one), and the
while condition is exactly "goal unmet and iterations < max_iterations". -/
theorem C5_loop_terminates (env : Env) (q : String) (minc : Nat) (minf : Rat)
    (N : Nat) (_hN : 0 < N) :
    (AgenticRecruitmentOrchestrator.find_candidates env q minc minf N).iterations ≤ N ∧
    (∀ k, runLoop env (N + k)
        { query := q, min_candidates := minc, min_fit_score := minf, max_iterations := N }
      = AgenticRecruitmentOrchestrator.find_candidates env q minc minf N) ∧
    (∀ s : AgentState, (loopBody env s).1.iterations = s.iterations ∧
      (loopBody env s).1.max_iterations = s.max_iterations) ∧
    (∀ s : AgentState,
      s.should_continue = true ↔ s.goal_met = false ∧ s.iterations < s.max_iterations) := by
  refine ⟨?_, ?_, fun s => loopBody_frame env s, fun s => should_continue_iff s⟩
  · exact runLoop_iterations_le env N _ (Nat.zero_le N)
  · intro k
    exact runLoop_fuel_stable env N k _ (by show N ≤ 0 + N; omega)

/-- A decision backend that immediately proposes "finish", with inert
capability inputs; used to instantiate the termination theorem. -/
def envC5 : Env :=
  { decide_next_action := fun _ => { tool_name := "finish", reasoning := "stop" },
    profiles := fun _ => none, searchInput := fun _ => Except.error "e",
    githubInput := fun _ => Except.error "e",
    personalityInput := fun _ => Except.error "e",
    rankInput := fun _ => Except.error "e" }

theorem C5_loop_terminates_witness :
    0 < 2 ∧ (AgenticRecruitmentOrchestrator.find_candidates envC5 "q" 0 5 2).iterations ≤ 2 :=
  ⟨by decide, (C5_loop_terminates envC5 "q" 0 5 2 (by decide)).1⟩

/-! ## C1 — the goal predicate and how the loop sets goal_met -/

/-- check_goal only reads final_rankings and the two thresholds. -/
theorem check_goal_congr (s t : AgentState)
    (h1 : t.final_rankings = s.final_rankings)
    (h2 : t.min_candidates = s.min_candidates)
    (h3 : t.min_fit_score = s.min_fit_score) :
    t.check_goal = s.check_goal := by
  simp [AgentState.check_goal, h1, h2, h3]

/-- Every registered capability either leaves goal_met alone or (ranking on
success) sets it to the goal predicate of its own result state. -/
theorem execTool_goal_met (env : Env) (s : AgentState) (name : String)
    (r : ToolResult) (s2 : AgentState) (h : execTool env s name = some (r, s2)) :
    s2.goal_met = s.goal_met ∨ s2.goal_met = s2.check_goal := by
  unfold execTool at h
  split at h
  · injection h with h
    left
    have h2 : s2 = (SearchCandidatesTool.execute s env.profiles (env.searchInput s.iterations)).2 := by
      rw [h]
    rw [h2]
    exact (searchExecute_frame s env.profiles (env.searchInput s.iterations)).2.2.2.2.1
  · split at h
    · injection h with h
      left
      have h2 : s2 = (GitHubAnalysisTool.execute s (env.githubInput s.iterations)).2 := by
        rw [h]
      rw [h2]
      exact (githubExecute_frame s (env.githubInput s.iterations)).2.2.2.2.1
    · split at h
      · injection h with h
        left
        have h2 : s2 = (PersonalityAnalysisTool.execute s (env.personalityInput s.iterations)).2 := by
          rw [h]
        rw [h2]
        exact (personalityExecute_frame s (env.personalityInput s.iterations)).2.2.2.2.1
      · split at h
        · injection h with h
          cases hin : env.rankInput s.iterations with
          | error e =>
            rw [hin] at h
            left
            have h2 : s2 = (RankingTool.execute s (Except.error e)).2 := by rw [h]
            rw [h2]
            rfl
          | ok lrs =>
            rw [hin] at h
            right
            have h2 : s2 = (RankingTool.execute s (Except.ok lrs)).2 := by rw [h]
            rw [h2]
            exact (check_goal_congr
              { s with final_rankings := rankMerge s.candidates lrs } _ rfl rfl rfl).symm
        · exact Option.noConfusion h

/-- The immediately-finish decision backend with inert capability inputs. -/
def envC1 : Env :=
  { decide_next_action := fun _ => { tool_name := "finish", reasoning := "done" },
    profiles := fun _ => none, searchInput := fun _ => Except.error "e",
    githubInput := fun _ => Except.error "e",
    personalityInput := fun _ => Except.error "e",
    rankInput := fun _ => Except.error "e" }

/-- C1 counterexample: run the loop with min_candidates = 0 and a backend
that immediately proposes "finish".  final_rankings stays empty, so the
claimed count predicate holds (0 matching entries >= min_candidates = 0),
yet the loop leaves goal_met = false: check_goal short-circuits to false on
an empty final_rankings regardless of min_candidates. -/
theorem C1_counterexample :
    (AgenticRecruitmentOrchestrator.find_candidates envC1 "q" 0 5 3).goal_met = false ∧
    (AgenticRecruitmentOrchestrator.find_candidates envC1 "q" 0 5 3).final_rankings = [] ∧
    (AgenticRecruitmentOrchestrator.find_candidates envC1 "q" 0 5 3).min_candidates ≤
      ((AgenticRecruitmentOrchestrator.find_candidates envC1 "q" 0 5 3).final_rankings.filter
        (fun c => decide ((AgenticRecruitmentOrchestrator.find_candidates
          envC1 "q" 0 5 3).min_fit_score ≤ c.fit_score.getD 0))).length :=
  ⟨rfl, rfl, Nat.zero_le _⟩

/-- C1 (amended): after a loop pass whose proposal is "finish" or a known
capability, goal_met equals the goal predicate of the resulting state, where
the predicate is: final_rankings is nonempty AND the number of entries with
fit_score >= min_fit_score is at least min_candidates.  A state with empty
final_rankings never counts as met, even when min_candidates = 0. -/
theorem C1_goal_predicate (env : Env) (s : AgentState)
    (hg : s.goal_met = false)
    (hd : (env.decide_next_action s).tool_name = "finish" ∨
      execTool env s (env.decide_next_action s).tool_name ≠ none) :
    ((loopBody env s).1.goal_met = (loopBody env s).1.check_goal) ∧
    (∀ t : AgentState, t.check_goal = true ↔
      (t.final_rankings ≠ [] ∧
        t.min_candidates ≤ (t.final_rankings.filter
          (fun c => decide (t.min_fit_score ≤ c.fit_score.getD 0))).length)) := by
  constructor
  · simp only [loopBody]
    split
    · exact (check_goal_congr s _ rfl rfl rfl).symm
    · next hfin =>
      cases hex : execTool env s (env.decide_next_action s).tool_name with
      | none =>
        rcases hd with hfin2 | hne
        · exact absurd hfin2 hfin
        · exact absurd hex hne
      | some pr =>
        obtain ⟨r, s2⟩ := pr
        simp only []
        split
        · next hcg =>
          have hcr : AgentState.check_goal
              { s2.add_execution_log (env.decide_next_action s) r with goal_met := true }
              = (s2.add_execution_log (env.decide_next_action s) r).check_goal :=
            check_goal_congr _ _ rfl rfl rfl
          rw [hcr, hcg]
        · next hcg =>
          have hc3 : (s2.add_execution_log (env.decide_next_action s) r).check_goal = false := by
            cases hval : (s2.add_execution_log (env.decide_next_action s) r).check_goal
            · rfl
            · exact absurd hval hcg
          have hgm : (s2.add_execution_log (env.decide_next_action s) r).goal_met
              = s2.goal_met :=
            (add_execution_log_frame s2 (env.decide_next_action s) r).2.2.1
          rw [hc3, hgm]
          rcases execTool_goal_met env s _ r s2 hex with h2 | h2
          · rw [h2, hg]
          · rw [h2]
            have hcc := check_goal_congr s2
              (s2.add_execution_log (env.decide_next_action s) r)
              (add_execution_log_frame s2 (env.decide_next_action s) r).2.2.2.1
              (add_execution_log_frame s2 (env.decide_next_action s) r).2.2.2.2.1
              (add_execution_log_frame s2 (env.decide_next_action s) r).2.2.2.2.2.1
            rw [← hcc, hc3]
  · intro t
    by_cases hfr : t.final_rankings.isEmpty
    · have hnil : t.final_rankings = [] := by simpa [List.isEmpty_iff] using hfr
      simp [AgentState.check_goal, hfr, hnil]
    · have hnnil : t.final_rankings ≠ [] := by simpa [List.isEmpty_iff] using hfr
      simp [AgentState.check_goal, hfr, hnnil]

theorem C1_goal_predicate_witness :
    (loopBody envC1 { query := "q" }).1.goal_met
      = (loopBody envC1 { query := "q" }).1.check_goal :=
  (C1_goal_predicate envC1 { query := "q" } rfl (Or.inl rfl)).1

/-! ## C3 — trace entries per iteration -/

/-- A decision backend that always proposes the unregistered capability name
"expand_search" (the orchestrator advertises it but registers no tool for
it), with inert capability inputs. -/
def envC3 : Env :=
  { decide_next_action := fun _ => { tool_name := "expand_search", reasoning := "widen" },
    profiles := fun _ => none, searchInput := fun _ => Except.error "e",
    githubInput := fun _ => Except.error "e",
    personalityInput := fun _ => Except.error "e",
    rankInput := fun _ => Except.error "e" }

/-- C3 counterexample: one iteration whose proposal is the unknown
capability name "expand_search" contributes NO trace entry — the loop skips
logging and continues.  After a run of 1 iteration with 0 "finish" proposals
the log is empty, not of length 1 as the claim demands. -/
theorem C3_counterexample :
    (AgenticRecruitmentOrchestrator.find_candidates envC3 "q" 3 7 1).iterations = 1 ∧
    (AgenticRecruitmentOrchestrator.find_candidates envC3 "q" 3 7 1).execution_log.length = 0 ∧
    (AgenticRecruitmentOrchestrator.find_candidates envC3 "q" 3 7 1).tools_used = [] ∧
    (envC3.decide_next_action
      (AgenticRecruitmentOrchestrator.find_candidates envC3 "q" 3 7 1)).tool_name
      ≠ "finish" :=
  ⟨rfl, rfl, rfl, by decide⟩

/-- One loop pass under a "finish" proposal: re-evaluate the goal and stop. -/
theorem runLoop_succ_finish (env : Env) (n : Nat) (s : AgentState)
    (hsc : s.should_continue = true)
    (hfin : (env.decide_next_action { s with iterations := s.iterations + 1 }).tool_name
      = "finish") :
    runLoop env (n + 1) s
      = { { s with iterations := s.iterations + 1 } with
          goal_met := ({ s with iterations := s.iterations + 1 } : AgentState).check_goal } := by
  simp [runLoop, hsc, loopBody, hfin]

/-- One loop pass under a "finish" proposal appends nothing: one skip. -/
theorem skippedCount_succ_finish (env : Env) (n : Nat) (s : AgentState)
    (hsc : s.should_continue = true)
    (hfin : (env.decide_next_action { s with iterations := s.iterations + 1 }).tool_name
      = "finish") :
    skippedCount env (n + 1) s = 1 := by
  simp [skippedCount, hsc, hfin]

/-- One loop pass under an unknown capability name: continue, state unchanged
apart from the incremented counter. -/
theorem runLoop_succ_unknown (env : Env) (n : Nat) (s : AgentState)
    (hsc : s.should_continue = true)
    (hfin : ¬(env.decide_next_action { s with iterations := s.iterations + 1 }).tool_name
      = "finish")
    (hex : execTool env { s with iterations := s.iterations + 1 }
      (env.decide_next_action { s with iterations := s.iterations + 1 }).tool_name = none) :
    runLoop env (n + 1) s = runLoop env n { s with iterations := s.iterations + 1 } := by
  simp [runLoop, hsc, loopBody, hfin, hex]

/-- One loop pass under an unknown capability name appends nothing: one skip
plus whatever the rest of the run skips. -/
theorem skippedCount_succ_unknown (env : Env) (n : Nat) (s : AgentState)
    (hsc : s.should_continue = true)
    (hfin : ¬(env.decide_next_action { s with iterations := s.iterations + 1 }).tool_name
      = "finish")
    (hex : execTool env { s with iterations := s.iterations + 1 }
      (env.decide_next_action { s with iterations := s.iterations + 1 }).tool_name = none) :
    skippedCount env (n + 1) s
      = 1 + skippedCount env n { s with iterations := s.iterations + 1 } := by
  simp [skippedCount, hsc, hfin, hex]

/-- One loop pass that executes a registered capability: log the call, then
either stop (goal met) or continue from the logged state. -/
theorem runLoop_succ_known (env : Env) (n : Nat) (s : AgentState)
    (r : ToolResult) (s2 : AgentState)
    (hsc : s.should_continue = true)
    (hfin : ¬(env.decide_next_action { s with iterations := s.iterations + 1 }).tool_name
      = "finish")
    (hex : execTool env { s with iterations := s.iterations + 1 }
      (env.decide_next_action { s with iterations := s.iterations + 1 }).tool_name
      = some (r, s2)) :
    runLoop env (n + 1) s
      = if (s2.add_execution_log
            (env.decide_next_action { s with iterations := s.iterations + 1 }) r).check_goal
          = true
        then { s2.add_execution_log
                (env.decide_next_action { s with iterations := s.iterations + 1 }) r with
               goal_met := true }
        else runLoop env n (s2.add_execution_log
              (env.decide_next_action { s with iterations := s.iterations + 1 }) r) := by
  simp only [runLoop, hsc, if_true, loopBody, hfin, if_false, hex]
  split <;> rfl

/-- One loop pass that executes a registered capability appends one entry:
no skip in this pass. -/
theorem skippedCount_succ_known (env : Env) (n : Nat) (s : AgentState)
    (r : ToolResult) (s2 : AgentState)
    (hsc : s.should_continue = true)
    (hfin : ¬(env.decide_next_action { s with iterations := s.iterations + 1 }).tool_name
      = "finish")
    (hex : execTool env { s with iterations := s.iterations + 1 }
      (env.decide_next_action { s with iterations := s.iterations + 1 }).tool_name
      = some (r, s2)) :
    skippedCount env (n + 1) s
      = if (s2.add_execution_log
            (env.decide_next_action { s with iterations := s.iterations + 1 }) r).check_goal
          = true
        then 0
        else skippedCount env n (s2.add_execution_log
              (env.decide_next_action { s with iterations := s.iterations + 1 }) r) := by
  simp only [skippedCount, hsc, if_true, hfin, if_false, hex]

/-- C3 (amended): each loop pass that executes a registered capability
appends exactly one trace entry; passes whose proposal is "finish" or an
unknown capability name append none.  Hence len(execution_log) grows by at
most one per iteration - at termination it is at most iterations - and it
equals iterations minus the number of "finish" and unknown-capability
proposals (skippedCount). -/
theorem C3_trace_correspondence (env : Env) (fuel : Nat) :
    ∀ s : AgentState,
      ((runLoop env fuel s).execution_log.length + s.iterations + skippedCount env fuel s
        = s.execution_log.length + (runLoop env fuel s).iterations) ∧
      ((runLoop env fuel s).execution_log.length + s.iterations
        ≤ s.execution_log.length + (runLoop env fuel s).iterations) := by
  induction fuel with
  | zero => intro s; simp [runLoop, skippedCount]
  | succ n ih =>
    intro s
    have key : (runLoop env (n + 1) s).execution_log.length + s.iterations
        + skippedCount env (n + 1) s
        = s.execution_log.length + (runLoop env (n + 1) s).iterations := by
      by_cases hsc : s.should_continue = true
      · by_cases hfin : (env.decide_next_action
            { s with iterations := s.iterations + 1 }).tool_name = "finish"
        · rw [runLoop_succ_finish env n s hsc hfin, skippedCount_succ_finish env n s hsc hfin]
          show s.execution_log.length + s.iterations + 1
            = s.execution_log.length + (s.iterations + 1)
          omega
        · cases hex : execTool env { s with iterations := s.iterations + 1 }
              (env.decide_next_action { s with iterations := s.iterations + 1 }).tool_name with
          | none =>
            rw [runLoop_succ_unknown env n s hsc hfin hex,
                skippedCount_succ_unknown env n s hsc hfin hex]
            have hrec := (ih { s with iterations := s.iterations + 1 }).1
            have e1 : ({ s with iterations := s.iterations + 1 } : AgentState).iterations
                = s.iterations + 1 := rfl
            have e2 : ({ s with iterations := s.iterations + 1 } : AgentState).execution_log
                = s.execution_log := rfl
            rw [e1, e2] at hrec
            omega
          | some pr =>
            obtain ⟨r, s2⟩ := pr
            rw [runLoop_succ_known env n s r s2 hsc hfin hex,
                skippedCount_succ_known env n s r s2 hsc hfin hex]
            obtain ⟨he1, _, _, _, he5⟩ := execTool_frame env
              { s with iterations := s.iterations + 1 } _ r s2 hex
            obtain ⟨ha1, _, _, _, _, _, ha7⟩ := add_execution_log_frame s2
              (env.decide_next_action { s with iterations := s.iterations + 1 }) r
            have e1 : ({ s with iterations := s.iterations + 1 } : AgentState).iterations
                = s.iterations + 1 := rfl
            have e2 : ({ s with iterations := s.iterations + 1 } : AgentState).execution_log
                = s.execution_log := rfl
            rw [e1] at he1
            rw [e2] at he5
            by_cases hcg : (s2.add_execution_log
                (env.decide_next_action { s with iterations := s.iterations + 1 }) r).check_goal
                = true
            · rw [if_pos hcg, if_pos hcg]
              show (s2.add_execution_log
                  (env.decide_next_action { s with iterations := s.iterations + 1 })
                  r).execution_log.length + s.iterations + 0
                = s.execution_log.length
                  + (s2.add_execution_log
                      (env.decide_next_action { s with iterations := s.iterations + 1 })
                      r).iterations
              rw [ha7, ha1, he1, he5]
              omega
            · rw [if_neg hcg, if_neg hcg]
              have hrec := (ih (s2.add_execution_log
                (env.decide_next_action { s with iterations := s.iterations + 1 }) r)).1
              rw [ha7, ha1, he1, he5] at hrec
              omega
      · have hf : s.should_continue = false := by
          cases hv : s.should_continue
          · rfl
          · exact absurd hv hsc
        rw [runLoop_stop env (n + 1) s hf]
        have hskip : skippedCount env (n + 1) s = 0 := by
          simp [skippedCount, hf]
        rw [hskip]
        omega
    exact ⟨key, by omega⟩
